import Mathlib

/-!
# Verification of the cncjs tactical-simulation core

Shallow embedding of the grid/occupancy layer (`src/game/map.js`), the entity
state machine (`src/game/entity.ts`, `src/game/entities/mapentity.ts`) and the
physics helpers (`src/game/physics.ts`) of the cncjs repository, together with
proofs and refutations of the frozen specification claims.

Modelling conventions:
* JavaScript numbers are modelled as rationals (`ℚ`); integer-valued fields
  (cells, tile indices, health) as `ℤ`.
* The transcendental library functions the code calls (`Math.sqrt`, `Math.sin`,
  `Math.cos`, `Math.atan2`, `Math.PI`) are threaded through a `MathLib`
  record, so every definition stays executable; theorems that depend on a
  property of these functions state it as an explicit hypothesis, and
  `Math.floor(Math.sqrt n)` on integer squared distances (which `sqrt`
  computes exactly at the relevant magnitudes) is embedded as `Nat.sqrt`.
* Mutation is explicit state passing; JavaScript arrays indexed by possibly
  out-of-range integers are modelled as total functions into `Option`.
-/

/-- 2D vector with rational (pixel-precision) coordinates, modelling the
`vector2d` `Vector` values used for continuous positions. -/
structure VecQ where
  x : ℚ
  y : ℚ
deriving DecidableEq, Repr

/-- 2D vector with integer coordinates, modelling `Vector` values that always
hold grid-cell coordinates. -/
structure VecZ where
  x : ℤ
  y : ℤ
deriving DecidableEq, Repr

/-- Coordinatewise subtraction (`Vector.subtract`). -/
def VecQ.sub (a b : VecQ) : VecQ := ⟨a.x - b.x, a.y - b.y⟩

/-- Coordinatewise addition (`Vector.add`). -/
def VecQ.add (a b : VecQ) : VecQ := ⟨a.x + b.x, a.y + b.y⟩

/-- Cast an integer cell vector to a rational vector. -/
def VecZ.toQ (a : VecZ) : VecQ := ⟨(a.x : ℚ), (a.y : ℚ)⟩

/-- `CELL_SIZE` from `src/game/physics.ts`. -/
def CELL_SIZE : ℚ := 24

/-- `cellFromPoint` from `src/game/physics.ts`:
`new Vector(Math.floor(point.x / CELL_SIZE), Math.floor(point.y / CELL_SIZE))`. -/
def cellFromPoint (point : VecQ) : VecZ :=
  ⟨⌊point.x / CELL_SIZE⌋, ⌊point.y / CELL_SIZE⌋⟩

/-- `pointFromCell` from `src/game/physics.ts`:
`new Vector(cell.x * CELL_SIZE, cell.y * CELL_SIZE)`. -/
def pointFromCell (cell : VecZ) : VecQ :=
  ⟨(cell.x : ℚ) * CELL_SIZE, (cell.y : ℚ) * CELL_SIZE⟩

/-- The transcendental `Math` functions used by the code, kept abstract so the
embedding stays executable.  `Math.round` is embedded directly as Mathlib's
`round` (both round halves toward positive infinity), and floors of square
roots of integers as `Nat.sqrt`. -/
structure MathLib where
  sqrt : ℚ → ℚ
  sin : ℚ → ℚ
  cos : ℚ → ℚ
  atan2 : ℚ → ℚ → ℚ
  pi : ℚ

/-- `getDirection` from `src/game/physics.ts`: bearing from `source` to
`target` quantised into `base` direction buckets. -/
def getDirection (M : MathLib) (target source : VecQ) (base : ℚ) : ℚ :=
  let dx := target.x - source.x
  let dy := target.y - source.y
  let angle := base / 2 + ((round (M.atan2 dx dy * base / (2 * M.pi)) : ℤ) : ℚ)
  let angle := if angle < 0 then angle + base else angle
  let angle := if angle ≥ base then angle - base else angle
  angle

/-- `getNewDirection` from `src/game/physics.ts`: one interpolation step of a
direction value toward a target bucket, at `speed / 10` per step, choosing the
shorter way around and wrapping at the ends of the `[0, dirs)` range. -/
def getNewDirection (current target speed dirs : ℚ) : ℚ :=
  let current :=
    if (target > current ∧ target - current < dirs / 2) ∨
       (target < current ∧ current - target > dirs / 2)
    then current + speed / 10
    else current - speed / 10
  if current > dirs - 1 then current - (dirs - 1)
  else if current < 0 then current + (dirs - 1)
  else current

/-- C4: for every current direction in `[0, directionCount)`, every target
bucket and every per-tick interpolation step whose increment `speed / 10` is
nonnegative and smaller than `directionCount - 1`, the value produced by
`getNewDirection` stays within `[0, directionCount)`.  Both the body-direction
update and the turret-direction update of `GameMapEntity.tick` are calls to
this one function (with `rotationSpeed` resp. `rotationSpeed * 4` and the
respective bucket counts), so the bound covers both. -/
theorem getNewDirection_mem_range (current target speed dirs : ℚ)
    (hc0 : 0 ≤ current) (hcd : current < dirs)
    (hs0 : 0 ≤ speed) (hsd : speed / 10 < dirs - 1) :
    0 ≤ getNewDirection current target speed dirs ∧
      getNewDirection current target speed dirs < dirs := by
  have hinc0 : 0 ≤ speed / 10 := by positivity
  have hd1 : (0 : ℚ) < dirs - 1 := lt_of_le_of_lt hinc0 hsd
  simp only [getNewDirection]
  split_ifs <;> constructor <;> linarith

/-- Witness for C4 at a concrete input: a unit facing bucket `31.5` of `32`
rotating toward bucket `2` at speed `4` stays inside `[0, 32)`. -/
theorem getNewDirection_mem_range_witness :
    (0 ≤ (63 / 2 : ℚ) ∧ (63 / 2 : ℚ) < 32 ∧ 0 ≤ (4 : ℚ) ∧ (4 : ℚ) / 10 < 32 - 1) ∧
      (0 ≤ getNewDirection (63 / 2) 2 4 32 ∧ getNewDirection (63 / 2) 2 4 32 < 32) :=
  ⟨by norm_num,
    getNewDirection_mem_range (63 / 2) 2 4 32 (by norm_num) (by norm_num)
      (by norm_num) (by norm_num)⟩

/-- A weapon as seen by `GameMapEntity` (`src/game/weapons.ts` is external to
these sources): `tick` only reads its configured `Range`. -/
structure Weapon where
  range : ℚ
deriving DecidableEq, Repr

/-- The facts `GameMapEntity.tick` reads off its target entity: `getCell()`
and `isDestroyed()`. -/
structure TargetInfo where
  cell : VecZ
  destroyed : Bool
deriving DecidableEq, Repr

/-- The mutable state of a map entity: the fields of `GameMapBaseEntity` /
`GameMapEntity` (`src/game/entity.ts`) and of the
`src/game/entities/mapentity.ts` `GameMapEntity` that the claims touch,
together with the per-class constants (`directions`, `canRotate`,
`properties.HasTurret`, speeds, weapon slots) that the methods consult. -/
structure EntityState where
  position : VecQ
  cell : VecZ
  health : ℤ
  dying : Bool
  destroyed : Bool
  direction : ℚ
  directions : ℚ
  turretDirection : ℚ
  turretDirections : ℚ
  targetDirection : ℚ
  subCell : ℤ
  targetSubCell : ℤ
  targetPosition : Option VecQ
  targetEntity : Option TargetInfo
  targetAction : Option String
  currentAction : Option String
  currentPath : List VecZ
  hasTurret : Bool
  noTurretLock : Bool
  canRotate : Bool
  rotationSpeed : ℚ
  movementSpeed : ℚ
  sight : ℚ
  primaryWeapon : Option Weapon
  secondaryWeapon : Option Weapon
  dimension : VecQ
deriving DecidableEq, Repr

/-- `GameMapEntity.destroy` (`src/game/entity.ts`): flags the entity
destroyed (the engine `Entity.destroy` sets the flag; `map.removeEntity` and
the walkable-tile toggle act on external state modelled separately). -/
def entityDestroy (s : EntityState) : EntityState :=
  if s.destroyed then s else { s with destroyed := true }

/-- `GameMapEntity.die` (`src/game/entity.ts`, lines 417-433): a no-op
returning `false` while already dying, otherwise sets the dying flag, plays
the destroy report (external audio), optionally destroys, and returns
`true`. -/
def die (destroy : Bool) (s : EntityState) : EntityState × Bool :=
  if s.dying then (s, false)
  else
    let s := { s with dying := true }
    let s := if destroy then entityDestroy s else s
    (s, true)

/-- `GameMapEntity.takeDamage` (`src/game/entity.ts`, lines 453-462): only
acts while health is positive, clamps the new health at zero, and calls
`die()` when it reaches zero. -/
def takeDamage (value : ℤ) (s : EntityState) : EntityState :=
  if s.health > 0 then
    let s := { s with health := max 0 (s.health - value) }
    if s.health ≤ 0 then (die true s).1 else s
  else s

/-- `GameMapBaseEntity.setCell` (`src/game/entity.ts`, lines 103-109): stores
the cell and, when `updatePosition` is set, also stores
`pointFromCell cell` as the position (the nested `setPosition` call uses its
default `updateCell = false`, so it is inlined here as a plain store). -/
def setCell (cell : VecZ) (updatePosition : Bool) (s : EntityState) : EntityState :=
  let s := { s with cell := cell }
  if updatePosition then { s with position := pointFromCell cell } else s

/-- `GameMapBaseEntity.setPosition` (`src/game/entity.ts`, lines 111-117):
stores the position (via the engine-level `super.setPosition`) and, when
`updateCell` is set, also stores `cellFromPoint position` as the cell (the
nested `setCell` call uses its default `updatePosition = false`, so it is
inlined here as a plain store).  `updateCell` defaults to `false` in the
source. -/
def setPosition (position : VecQ) (updateCell : Bool) (s : EntityState) : EntityState :=
  let s := { s with position := position }
  if updateCell then { s with cell := cellFromPoint position } else s

/-- `die` never changes the health field. -/
theorem die_fst_health (d : Bool) (s : EntityState) : ((die d s).1).health = s.health := by
  simp only [die, entityDestroy]
  split_ifs <;> rfl

/-- `die` always leaves the dying flag set afterwards. -/
theorem die_fst_dying (d : Bool) (s : EntityState) : ((die d s).1).dying = true ∨
    ((die d s).1 = s ∧ s.dying = true) := by
  simp only [die, entityDestroy]
  split_ifs with h1 h2 <;> simp [h1]

/-- A default idle entity used to instantiate witnesses at concrete inputs. -/
def idleEntity : EntityState :=
  { position := ⟨0, 0⟩
    cell := ⟨0, 0⟩
    health := 3
    dying := false
    destroyed := false
    direction := 0
    directions := 32
    turretDirection := 0
    turretDirections := 32
    targetDirection := -1
    subCell := -1
    targetSubCell := -1
    targetPosition := none
    targetEntity := none
    targetAction := none
    currentAction := none
    currentPath := []
    hasTurret := false
    noTurretLock := false
    canRotate := false
    rotationSpeed := 1
    movementSpeed := 1
    sight := 1
    primaryWeapon := none
    secondaryWeapon := none
    dimension := ⟨24, 24⟩ }

/-- C2: `takeDamage` keeps health at or above zero and is a no-op once health
has reached zero; it sets the dying flag exactly when the clamped health
reaches zero; and `die` succeeds exactly once — the first call returns `true`
and flips the dying flag, any further call returns `false` and leaves the
state untouched. -/
theorem takeDamage_die_contract (s : EntityState) (v : ℤ) (hh : 0 ≤ s.health) :
    0 ≤ (takeDamage v s).health ∧
    (s.health = 0 → takeDamage v s = s) ∧
    (0 < s.health → s.health ≤ v →
      (takeDamage v s).health = 0 ∧ (takeDamage v s).dying = true) ∧
    (0 < s.health → v < s.health →
      (takeDamage v s).health = s.health - v ∧ (takeDamage v s).dying = s.dying) ∧
    (∀ d : Bool, (die d s).2 = !s.dying) ∧
    (∀ d d' : Bool, (die d' ((die d s).1)).2 = false ∧
      (die d' ((die d s).1)).1 = (die d s).1) := by
  refine ⟨?_, ?_, ?_, ?_, ?_, ?_⟩
  · simp only [takeDamage]
    split_ifs with h1 h2
    · rw [die_fst_health]
      simp only []
      omega
    · simp only []
      omega
    · omega
  · intro h0
    simp [takeDamage, h0]
  · intro hpos hle
    have hmax : max 0 (s.health - v) = 0 := by omega
    simp only [takeDamage, if_pos hpos, hmax]
    rw [if_pos (by omega : (0 : ℤ) ≤ 0)]
    constructor
    · rw [die_fst_health]
    · simp [die, entityDestroy]
      split_ifs with h1 <;> simp [h1]
  · intro hpos hlt
    have hmax : max 0 (s.health - v) = s.health - v := by omega
    simp only [takeDamage, if_pos hpos, hmax]
    rw [if_neg (by omega : ¬ (s.health - v ≤ 0))]
    exact ⟨rfl, rfl⟩
  · intro d
    simp only [die]
    split_ifs with h1 <;> simp [h1]
  · intro d d'
    simp only [die, entityDestroy]
    split_ifs with h1 h2 <;> simp_all

/-- Witness for C2 at a concrete state: a healthy entity with 3 health hit
for 5 damage. -/
theorem takeDamage_die_contract_witness :
    0 ≤ idleEntity.health ∧ 0 ≤ (takeDamage 5 idleEntity).health :=
  ⟨by decide, (takeDamage_die_contract idleEntity 5 (by decide)).1⟩

/-- `SPEED_DIVIDER` from `src/game/entities/mapentity.ts`. -/
def SPEED_DIVIDER : ℚ := 20

/-- `TURNSPEED_DIVIDER` from `src/game/entities/mapentity.ts`. -/
def TURNSPEED_DIVIDER : ℚ := 8

/-- `GameMapEntity.getWeaponSight` (`src/game/entities/mapentity.ts`,
lines 504-511): the primary (else secondary) weapon's configured range, else
the entity's innate sight. -/
def getWeaponSight (s : EntityState) : ℚ :=
  match s.primaryWeapon with
  | some w => w.range
  | none =>
    match s.secondaryWeapon with
    | some w => w.range
    | none => s.sight

/-- `Math.floor(targetCell.distance(cell))` as computed by
`GameMapEntity.tick`: the floor of the Euclidean distance between two integer
cell vectors.  For a natural number `n`, `Math.floor(Math.sqrt(n))` is exactly
`Nat.sqrt n` (IEEE square roots are correctly rounded and the squared
distances in play are far below the precision limit). -/
def floorCellDistance (a b : VecZ) : ℕ :=
  Nat.sqrt ((a.x - b.x) ^ 2 + (a.y - b.y) ^ 2).toNat

/-- Chebyshev (chessboard) distance between two cells, used to state the
range claims; the code itself never computes this. -/
def chebyshev (a b : VecZ) : ℕ :=
  max (a.x - b.x).natAbs (a.y - b.y).natAbs

/-- Modelled from the spec: `getSubCellOffset` is referenced from
`src/game/physics.ts` but absent from the version of that file in these
sources.  Per the glossary, a sub-cell is "a fractional position within a
cell used for fine unit placement"; this models the offset of a sub-cell slot
for an entity of the given dimension (slot 0 centres the entity, slots 1-4
are the cell quarters).  No claim depends on the concrete values. -/
def getSubCellOffset (subCell : ℤ) (dimension : VecQ) : VecQ :=
  if subCell = 1 then ⟨0, 0⟩
  else if subCell = 2 then ⟨CELL_SIZE / 2, 0⟩
  else if subCell = 3 then ⟨0, CELL_SIZE / 2⟩
  else if subCell = 4 then ⟨CELL_SIZE / 2, CELL_SIZE / 2⟩
  else ⟨(CELL_SIZE - dimension.x) / 2, (CELL_SIZE - dimension.y) / 2⟩

/-- `GameMapEntity.getMovementVelocity` (`src/game/entities/mapentity.ts`,
lines 519-527): per-axis velocity from `movementSpeed / SPEED_DIVIDER` along
the facing angle toward `tp` (the non-null-asserted `this.targetPosition!`),
or `undefined` when the remaining distance is within one tick's travel. -/
def movementVel (M : MathLib) (s : EntityState) (tp : VecQ) : VecQ :=
  let speed := s.movementSpeed / SPEED_DIVIDER
  let direction := getDirection M tp s.position s.directions
  let angleRadians := direction / s.directions * 2 * M.pi
  ⟨speed * M.sin angleRadians, speed * M.cos angleRadians⟩

/-- See `movementVel`, which names the `vel` local of the source function. -/
def getMovementVelocity (M : MathLib) (s : EntityState) (tp : VecQ) : Option VecQ :=
  let speed := s.movementSpeed / SPEED_DIVIDER
  let distance := M.sqrt ((tp.x - s.position.x) ^ 2 + (tp.y - s.position.y) ^ 2)
  if distance > speed then some (movementVel M s tp) else none

/-- `GameMapEntity.moveTo` (`src/game/entities/mapentity.ts`, lines 383-400):
requests a path from the map's planner (`map.createPath` lives in
`src/game/map.ts`, external to these sources, and is therefore passed in as a
function), resets the movement bookkeeping and installs the path; returns
whether a path was found.  The `report` sound is an external audio effect. -/
def moveTo (createPath : VecZ → VecZ → Bool → List VecZ) (position : VecZ)
    (force : Bool) (s : EntityState) : EntityState × Bool :=
  let path := createPath s.cell position force
  ({ s with targetSubCell := -1
            targetDirection := -1
            targetPosition := none
            currentPath := path },
    path.length > 0)

/-- The target block of `GameMapEntity.tick` (`src/game/entities/mapentity.ts`,
lines 198-223), entered after `currentAction` has been reset: turret aiming,
the floored-Euclidean range check that engages the current action, and the
re-path toward an out-of-range target. -/
def tickTarget (M : MathLib) (createPath : VecZ → VecZ → Bool → List VecZ)
    (rotationSpeed : ℚ) (s : EntityState) : EntityState :=
  match s.targetEntity with
  | none => s
  | some t =>
    let targetCell := t.cell
    let direction := getDirection M targetCell.toQ s.cell.toQ s.directions
    let turretDirection := getDirection M targetCell.toQ s.cell.toQ s.turretDirections
    let distance : ℚ := (floorCellDistance targetCell s.cell : ℚ)
    let sight := if s.targetAction = some "harvest" then 0 else getWeaponSight s
    let turretReached := ((round s.turretDirection : ℤ) : ℚ) = turretDirection
    let rotateTurret := s.hasTurret && !s.noTurretLock
    if rotateTurret = true ∧ ¬ turretReached then
      { s with turretDirection :=
          getNewDirection s.turretDirection turretDirection (rotationSpeed * 4) s.turretDirections }
    else if distance ≤ sight then
      let s := if ¬ s.canRotate then { s with direction := direction } else s
      let s := if ¬ rotateTurret then { s with turretDirection := turretDirection } else s
      { s with targetPosition := none
               currentPath := []
               currentAction := s.targetAction }
    else if s.currentPath.length = 0 ∧ s.targetPosition = none then
      (moveTo createPath targetCell true s).1
    else s

/-- The action cascade of `GameMapEntity.tick`
(`src/game/entities/mapentity.ts`, lines 225-269): fire / harvest when the
action engaged, else run a pending rotation order, else advance a continuous
move, else pop the next path segment, else idle.  The second component
records the target handed to `primaryWeapon.fire` (the `Weapon` class is
external to these sources); `harvestResource` is a no-op in this class. -/
def tickAction (M : MathLib) (rotationSpeed : ℚ) (s : EntityState) :
    EntityState × Option TargetInfo :=
  if s.currentAction = some "attack" then
    (s, s.targetEntity)
  else if s.currentAction = some "harvest" then
    (s, none)
  else if s.targetDirection ≠ -1 then
    let d2 := getNewDirection s.direction s.targetDirection rotationSpeed s.directions
    let s := { s with direction := d2 }
    let s := if ((round s.direction : ℤ) : ℚ) = s.targetDirection
      then { s with targetDirection := -1 } else s
    (s, none)
  else
    match s.targetPosition with
    | some tp =>
      (match getMovementVelocity M s tp with
      | some vel =>
        let position := s.position.sub vel
        { s with position := position
                 cell := cellFromPoint ⟨(⌊position.x⌋ : ℚ), (⌊position.y⌋ : ℚ)⟩ }
      | none =>
        { s with subCell := s.targetSubCell
                 targetSubCell := -1
                 targetPosition := none
                 targetDirection := -1 }, none)
    | none =>
      match s.currentPath with
      | destination :: rest =>
        let targetPosition : VecQ :=
          ⟨(destination.x : ℚ) * CELL_SIZE, (destination.y : ℚ) * CELL_SIZE⟩
        let targetPosition :=
          if rest = [] ∧ s.targetSubCell ≠ -1
          then targetPosition.add (getSubCellOffset s.targetSubCell s.dimension)
          else targetPosition
        let direction := getDirection M targetPosition s.position s.directions
        let s := { s with currentPath := rest, targetPosition := some targetPosition }
        let s := if s.canRotate then { s with targetDirection := direction }
          else { s with direction := direction, targetDirection := -1 }
        (s, none)
      | [] => ({ s with targetDirection := -1 }, none)

/-- `GameMapEntity.tick` (`src/game/entities/mapentity.ts`, lines 179-270):
weapon cooldowns advance inside the external `Weapon` objects; then a
destroyed target is cleared, `currentAction` is reset, the target block runs,
and the action cascade runs.  Returns the new state together with the target
handed to `primaryWeapon.fire`, if any. -/
def tick (M : MathLib) (createPath : VecZ → VecZ → Bool → List VecZ)
    (s : EntityState) : EntityState × Option TargetInfo :=
  let s := match s.targetEntity with
    | some t => if t.destroyed then { s with targetEntity := none } else s
    | none => s
  let rotationSpeed := s.rotationSpeed / TURNSPEED_DIVIDER
  let s := { s with currentAction := none }
  let s := tickTarget M createPath rotationSpeed s
  tickAction M rotationSpeed s

/-- The squared integer distance, as a natural number. -/
theorem floorCellDistance_toNat (a b : VecZ) :
    ((a.x - b.x) ^ 2 + (a.y - b.y) ^ 2).toNat =
      (a.x - b.x).natAbs ^ 2 + (a.y - b.y).natAbs ^ 2 := by
  have : ((a.x - b.x) ^ 2 + (a.y - b.y) ^ 2 : ℤ) =
      (((a.x - b.x).natAbs ^ 2 + (a.y - b.y).natAbs ^ 2 : ℕ) : ℤ) := by
    push_cast
    simp [sq_abs]
  rw [this, Int.toNat_natCast]

/-- The floored Euclidean cell distance dominates the Chebyshev distance. -/
theorem chebyshev_le_floorCellDistance (a b : VecZ) :
    chebyshev a b ≤ floorCellDistance a b := by
  unfold chebyshev floorCellDistance
  rw [floorCellDistance_toNat]
  have h1 : (a.x - b.x).natAbs ≤ Nat.sqrt ((a.x - b.x).natAbs ^ 2 + (a.y - b.y).natAbs ^ 2) := by
    calc (a.x - b.x).natAbs = Nat.sqrt ((a.x - b.x).natAbs ^ 2) := (Nat.sqrt_eq' _).symm
    _ ≤ _ := Nat.sqrt_le_sqrt (Nat.le_add_right _ _)
  have h2 : (a.y - b.y).natAbs ≤ Nat.sqrt ((a.x - b.x).natAbs ^ 2 + (a.y - b.y).natAbs ^ 2) := by
    calc (a.y - b.y).natAbs = Nat.sqrt ((a.y - b.y).natAbs ^ 2) := (Nat.sqrt_eq' _).symm
    _ ≤ _ := Nat.sqrt_le_sqrt (Nat.le_add_left _ _)
  exact max_le h1 h2

/-- On an axis-aligned pair of cells the floored Euclidean distance is the
absolute coordinate difference. -/
theorem floorCellDistance_axis (a b : VecZ) (h : a.y = b.y) :
    floorCellDistance a b = (a.x - b.x).natAbs := by
  unfold floorCellDistance
  rw [floorCellDistance_toNat, h]
  simp [Nat.sqrt_eq']

/-- When no action is engaged, the rest of the tick cascade never engages one
and never fires: rotation, movement and path-popping branches leave
`currentAction` untouched. -/
theorem tickAction_of_currentAction_none (M : MathLib) (rs : ℚ) (s : EntityState)
    (h : s.currentAction = none) :
    (tickAction M rs s).1.currentAction = none ∧ (tickAction M rs s).2 = none := by
  unfold tickAction
  rw [if_neg (by simp [h]), if_neg (by simp [h])]
  split_ifs with h2
  · dsimp only
    split_ifs <;> exact ⟨h, rfl⟩
  · rcases htp : s.targetPosition with - | tp
    · rcases hcp : s.currentPath with - | ⟨d, rest⟩
      · exact ⟨h, rfl⟩
      · dsimp only
        split_ifs <;> exact ⟨h, rfl⟩
    · dsimp only
      rcases hv : getMovementVelocity M s tp with - | vel
      · exact ⟨h, rfl⟩
      · exact ⟨h, rfl⟩

/-- When the action cascade starts with an engaged `attack` action, it fires
the primary weapon at the target and changes nothing else. -/
theorem tickAction_of_attack (M : MathLib) (rs : ℚ) (s : EntityState)
    (h : s.currentAction = some "attack") :
    tickAction M rs s = (s, s.targetEntity) := by
  unfold tickAction
  rw [if_pos h]

/-- The target block with a live `attack` target and no turret: inside the
weapon range (floored Euclidean) it engages the action, halts movement and
clears the path. -/
theorem tickTarget_engaged_props (M : MathLib) (cp : VecZ → VecZ → Bool → List VecZ)
    (rs : ℚ) (s : EntityState) (t : TargetInfo)
    (ht : s.targetEntity = some t) (hnt : s.hasTurret = false)
    (ha : s.targetAction = some "attack")
    (hd : (floorCellDistance t.cell s.cell : ℚ) ≤ getWeaponSight s) :
    (tickTarget M cp rs s).currentAction = some "attack" ∧
    (tickTarget M cp rs s).currentPath = [] ∧
    (tickTarget M cp rs s).targetPosition = none ∧
    (tickTarget M cp rs s).targetEntity = some t := by
  unfold tickTarget
  rw [ht]
  dsimp only
  rw [hnt, ha]
  rw [if_neg (by simp)]
  rw [if_pos (by simpa using hd)]
  dsimp only
  split_ifs <;> simp [ht, ha]

/-- The target block with a live `attack` target and no turret: outside the
weapon range it never engages the action and leaves `currentAction` alone. -/
theorem tickTarget_not_engaged_props (M : MathLib) (cp : VecZ → VecZ → Bool → List VecZ)
    (rs : ℚ) (s : EntityState) (t : TargetInfo)
    (ht : s.targetEntity = some t) (hnt : s.hasTurret = false)
    (ha : s.targetAction = some "attack")
    (hd : ¬ (floorCellDistance t.cell s.cell : ℚ) ≤ getWeaponSight s) :
    (tickTarget M cp rs s).currentAction = s.currentAction := by
  unfold tickTarget
  rw [ht]
  dsimp only
  rw [hnt, ha]
  rw [if_neg (by simp)]
  rw [if_neg (by simpa using hd)]
  split_ifs <;> simp [moveTo]

/-- One full tick factors into the destroyed-target clearing, the
`currentAction` reset, the target block and the action cascade; with a live
target both of the first two steps leave everything but `currentAction`
unchanged. -/
theorem tick_eq_of_live_target (M : MathLib) (cp : VecZ → VecZ → Bool → List VecZ)
    (s : EntityState) (t : TargetInfo)
    (ht : s.targetEntity = some t) (htd : t.destroyed = false) :
    tick M cp s =
      tickAction M (s.rotationSpeed / TURNSPEED_DIVIDER)
        (tickTarget M cp (s.rotationSpeed / TURNSPEED_DIVIDER)
          { s with currentAction := none }) := by
  unfold tick
  rw [ht]
  dsimp only
  rw [htd]
  simp only [Bool.false_eq_true, if_false]
  rw [ht]

/-- Evaluation rule for `Nat.sqrt` at a concrete value. -/
theorem natSqrt_eval (n r : ℕ) (h1 : r * r ≤ n) (h2 : n < (r + 1) * (r + 1)) :
    Nat.sqrt n = r :=
  le_antisymm (Nat.lt_succ_iff.mp (Nat.sqrt_lt.mpr h2)) (Nat.le_sqrt.mpr h1)

/-- Evaluation rule for `floorCellDistance` at concrete cells. -/
theorem floorCellDistance_eval (a b : VecZ) (n r : ℕ)
    (hn : ((a.x - b.x) ^ 2 + (a.y - b.y) ^ 2).toNat = n)
    (h1 : r * r ≤ n) (h2 : n < (r + 1) * (r + 1)) :
    floorCellDistance a b = r := by
  unfold floorCellDistance
  rw [hn]
  exact natSqrt_eval n r h1 h2

/-- C3 (amended): with a live `attack` target and no turret to rotate, the
tick engages the attack exactly when the *floored Euclidean* distance between
the cells is within the weapon range `R`: engagement stops movement (clears
path and interpolation target) and fires at the target.  Consequently a
target at Chebyshev distance `R + 1` is never engaged, and an axis-aligned
target at Chebyshev distance `R` is engaged; a diagonally offset target at
Chebyshev distance `R` may fall outside the floored Euclidean radius and is
then *not* engaged (see the counterexample). -/
theorem tick_attack_range_boundary (M : MathLib) (cp : VecZ → VecZ → Bool → List VecZ)
    (s : EntityState) (t : TargetInfo) (R : ℕ)
    (ht : s.targetEntity = some t) (htd : t.destroyed = false)
    (ha : s.targetAction = some "attack") (hnt : s.hasTurret = false)
    (hR : getWeaponSight s = (R : ℚ)) :
    (floorCellDistance t.cell s.cell ≤ R →
      (tick M cp s).1.currentAction = some "attack" ∧
      (tick M cp s).1.currentPath = [] ∧
      (tick M cp s).1.targetPosition = none ∧
      (tick M cp s).2 = some t) ∧
    (R < floorCellDistance t.cell s.cell →
      (tick M cp s).1.currentAction = none ∧ (tick M cp s).2 = none) ∧
    (chebyshev t.cell s.cell = R + 1 →
      (tick M cp s).1.currentAction = none) ∧
    (t.cell.y = s.cell.y → (t.cell.x - s.cell.x).natAbs = R →
      (tick M cp s).1.currentAction = some "attack") := by
  have htick := tick_eq_of_live_target M cp s t ht htd
  have ht0 : (EntityState.targetEntity { s with currentAction := none }) = some t := ht
  have hnt0 : (EntityState.hasTurret { s with currentAction := none }) = false := hnt
  have ha0 : (EntityState.targetAction { s with currentAction := none }) = some "attack" := ha
  have hR0 : getWeaponSight { s with currentAction := none } = (R : ℚ) := hR
  have hEng : floorCellDistance t.cell s.cell ≤ R →
      (tick M cp s).1.currentAction = some "attack" ∧
      (tick M cp s).1.currentPath = [] ∧
      (tick M cp s).1.targetPosition = none ∧
      (tick M cp s).2 = some t := by
    intro hle
    have hdq : (floorCellDistance t.cell
        (EntityState.cell { s with currentAction := none }) : ℚ) ≤
        getWeaponSight { s with currentAction := none } := by
      rw [hR0]
      exact_mod_cast hle
    obtain ⟨h1, h2, h3, h4⟩ := tickTarget_engaged_props M cp
      (s.rotationSpeed / TURNSPEED_DIVIDER) { s with currentAction := none } t
      ht0 hnt0 ha0 hdq
    rw [htick, tickAction_of_attack _ _ _ h1]
    exact ⟨h1, h2, h3, h4⟩
  have hNot : R < floorCellDistance t.cell s.cell →
      (tick M cp s).1.currentAction = none ∧ (tick M cp s).2 = none := by
    intro hgt
    have hdq : ¬ (floorCellDistance t.cell
        (EntityState.cell { s with currentAction := none }) : ℚ) ≤
        getWeaponSight { s with currentAction := none } := by
      rw [hR0]
      exact not_le.mpr (by exact_mod_cast hgt)
    have h1 := tickTarget_not_engaged_props M cp
      (s.rotationSpeed / TURNSPEED_DIVIDER) { s with currentAction := none } t
      ht0 hnt0 ha0 hdq
    have h2 : (tickTarget M cp (s.rotationSpeed / TURNSPEED_DIVIDER)
        { s with currentAction := none }).currentAction = none := h1
    have h3 := tickAction_of_currentAction_none M
      (s.rotationSpeed / TURNSPEED_DIVIDER) _ h2
    rw [htick]
    exact h3
  refine ⟨hEng, hNot, ?_, ?_⟩
  · intro hcheb
    have hlt : R < floorCellDistance t.cell s.cell := by
      have := chebyshev_le_floorCellDistance t.cell s.cell
      omega
    exact (hNot hlt).1
  · intro hy hx
    have : floorCellDistance t.cell s.cell = R := by
      rw [floorCellDistance_axis t.cell s.cell hy, hx]
    exact (hEng (le_of_eq this)).1

/-- A concrete instantiation of the abstract `Math` functions: the square
root is tabulated at the perfect squares the concrete runs use (where the
IEEE `Math.sqrt` is exact as well); the trigonometric values are arbitrary
since no claim's conclusion depends on them. -/
def M0 : MathLib :=
  { sqrt := fun q => if q = 1 then 1 else if q = 4 then 2 else 0
    sin := fun _ => 0
    cos := fun _ => 1
    atan2 := fun _ _ => 0
    pi := 0 }

/-- A path planner that finds no route (the planner is external state; the
claims settled on concrete runs do not depend on the returned path). -/
def createPathEmpty : VecZ → VecZ → Bool → List VecZ := fun _ _ _ => []

/-- An attacker at cell `(0,0)` with a range-3 weapon ordered to attack a
live target at cell `(3,3)` — Chebyshev distance exactly 3. -/
def diagonalAttacker : EntityState :=
  { idleEntity with
      targetEntity := some ⟨⟨3, 3⟩, false⟩
      targetAction := some "attack"
      primaryWeapon := some ⟨3⟩ }

/-- Counterexample to C3 as stated: the target sits at Chebyshev distance
exactly `R = 3` from the attacker, yet the tick does **not** engage the
attack — the code compares `Math.floor` of the *Euclidean* distance
(`⌊√18⌋ = 4 > 3`), not the chessboard distance. -/
theorem tick_chebyshev_engagement_counterexample :
    chebyshev ⟨3, 3⟩ diagonalAttacker.cell = 3 ∧
    getWeaponSight diagonalAttacker = 3 ∧
    diagonalAttacker.targetEntity = some ⟨⟨3, 3⟩, false⟩ ∧
    diagonalAttacker.targetAction = some "attack" ∧
    floorCellDistance ⟨3, 3⟩ diagonalAttacker.cell = 4 ∧
    (tick M0 createPathEmpty diagonalAttacker).1.currentAction = none ∧
    (tick M0 createPathEmpty diagonalAttacker).2 = none := by
  have hfd : floorCellDistance ⟨3, 3⟩ diagonalAttacker.cell = 4 :=
    floorCellDistance_eval ⟨3, 3⟩ diagonalAttacker.cell 18 4
      (by decide) (by decide) (by decide)
  have htick := tick_eq_of_live_target M0 createPathEmpty diagonalAttacker
    ⟨⟨3, 3⟩, false⟩ rfl rfl
  have hdq : ¬ ((floorCellDistance (⟨3, 3⟩ : VecZ)
      (EntityState.cell { diagonalAttacker with currentAction := none }) : ℚ) ≤
      getWeaponSight { diagonalAttacker with currentAction := none }) := by
    rw [show (EntityState.cell { diagonalAttacker with currentAction := none }) =
      diagonalAttacker.cell from rfl, hfd]
    decide
  have h1 := tickTarget_not_engaged_props M0 createPathEmpty
    (diagonalAttacker.rotationSpeed / TURNSPEED_DIVIDER)
    { diagonalAttacker with currentAction := none } ⟨⟨3, 3⟩, false⟩ rfl rfl rfl hdq
  have h2 : (tickTarget M0 createPathEmpty
      (diagonalAttacker.rotationSpeed / TURNSPEED_DIVIDER)
      { diagonalAttacker with currentAction := none }).currentAction = none := h1
  have h3 := tickAction_of_currentAction_none M0
    (diagonalAttacker.rotationSpeed / TURNSPEED_DIVIDER) _ h2
  rw [htick] at *
  exact ⟨by decide, by decide, rfl, rfl, hfd, h3.1, h3.2⟩

/-- An attacker at cell `(0,0)` with a range-3 weapon ordered to attack a
live target at cell `(2,0)`. -/
def axisAttacker : EntityState :=
  { idleEntity with
      targetEntity := some ⟨⟨2, 0⟩, false⟩
      targetAction := some "attack"
      primaryWeapon := some ⟨3⟩ }

/-- Witness for the amended C3 theorem at a concrete input: an axis-aligned
in-range target is engaged. -/
theorem tick_attack_range_boundary_witness :
    (tick M0 createPathEmpty axisAttacker).1.currentAction = some "attack" ∧
    (tick M0 createPathEmpty axisAttacker).1.currentPath = [] ∧
    (tick M0 createPathEmpty axisAttacker).1.targetPosition = none ∧
    (tick M0 createPathEmpty axisAttacker).2 = some ⟨⟨2, 0⟩, false⟩ :=
  (tick_attack_range_boundary M0 createPathEmpty axisAttacker ⟨⟨2, 0⟩, false⟩ 3
    rfl rfl rfl rfl (by decide)).1
    (le_trans
      (le_of_eq (floorCellDistance_eval ⟨2, 0⟩ axisAttacker.cell 4 2
        (by decide) (by decide) (by decide)))
      (by decide))

/-- With no target entity at all, a tick is the action cascade run on the
state with `currentAction` reset. -/
theorem tick_eq_of_no_target (M : MathLib) (cp : VecZ → VecZ → Bool → List VecZ)
    (s : EntityState) (h : s.targetEntity = none) :
    tick M cp s =
      tickAction M (s.rotationSpeed / TURNSPEED_DIVIDER)
        { s with currentAction := none } := by
  unfold tick
  rw [h]
  dsimp only
  unfold tickTarget
  rw [show (EntityState.targetEntity { s with currentAction := none }) = none from h]

/-- The movement branch of the action cascade, isolated: with nothing
engaged, no pending rotation order and an interpolation target set, the tick
either moves by the computed velocity (recomputing the cell from the
truncated position) or, within one tick's travel, clears the sub-cell and
interpolation bookkeeping — without touching the position. -/
theorem tickAction_movement (M : MathLib) (rs : ℚ) (s : EntityState) (tp : VecQ)
    (hca : s.currentAction = none) (htd2 : s.targetDirection = -1)
    (htp : s.targetPosition = some tp) :
    tickAction M rs s =
      (match getMovementVelocity M s tp with
      | some vel =>
        { s with position := s.position.sub vel
                 cell := cellFromPoint ⟨(⌊(s.position.sub vel).x⌋ : ℚ),
                   (⌊(s.position.sub vel).y⌋ : ℚ)⟩ }
      | none =>
        { s with subCell := s.targetSubCell
                 targetSubCell := -1
                 targetPosition := none
                 targetDirection := -1 }, none) := by
  unfold tickAction
  rw [if_neg (by simp [hca]), if_neg (by simp [hca]), if_neg (by simp [htd2]), htp]

/-- C7 (amended): for an entity with an inter-cell move in progress
(`targetPosition` set, no target entity, no pending rotation order), when the
remaining distance exceeds one tick's travel (`movementSpeed / SPEED_DIVIDER`)
the tick subtracts the per-axis velocity from the position and recomputes the
cell from the truncated position; when it does not, the tick clears the
sub-cell bookkeeping (`subCell := targetSubCell`, `targetSubCell := -1`) and
clears `targetPosition` and `targetDirection`, but leaves the position (and
hence the cell) **unchanged** — it does not snap the position to the
destination. -/
theorem tick_movement_step (M : MathLib) (cp : VecZ → VecZ → Bool → List VecZ)
    (s : EntityState) (tp : VecQ)
    (h1 : s.targetEntity = none) (h2 : s.targetDirection = -1)
    (h3 : s.targetPosition = some tp) :
    (s.movementSpeed / SPEED_DIVIDER <
        M.sqrt ((tp.x - s.position.x) ^ 2 + (tp.y - s.position.y) ^ 2) →
      (tick M cp s).1.position = s.position.sub (movementVel M s tp) ∧
      (tick M cp s).1.cell = cellFromPoint
        ⟨(⌊(s.position.sub (movementVel M s tp)).x⌋ : ℚ),
          (⌊(s.position.sub (movementVel M s tp)).y⌋ : ℚ)⟩ ∧
      (tick M cp s).1.targetPosition = some tp ∧
      (tick M cp s).1.subCell = s.subCell) ∧
    (M.sqrt ((tp.x - s.position.x) ^ 2 + (tp.y - s.position.y) ^ 2) ≤
        s.movementSpeed / SPEED_DIVIDER →
      (tick M cp s).1.position = s.position ∧
      (tick M cp s).1.subCell = s.targetSubCell ∧
      (tick M cp s).1.targetSubCell = -1 ∧
      (tick M cp s).1.targetPosition = none ∧
      (tick M cp s).1.targetDirection = -1 ∧
      (tick M cp s).1.cell = s.cell) := by
  have htick := tick_eq_of_no_target M cp s h1
  have hmove := tickAction_movement M (s.rotationSpeed / TURNSPEED_DIVIDER)
    { s with currentAction := none } tp rfl h2 h3
  rw [hmove] at htick
  constructor
  · intro hgt
    have hv : getMovementVelocity M { s with currentAction := none } tp =
        some (movementVel M { s with currentAction := none } tp) := by
      unfold getMovementVelocity
      rw [if_pos]
      exact hgt
    rw [htick, hv]
    exact ⟨rfl, rfl, h3, rfl⟩
  · intro hle
    have hv : getMovementVelocity M { s with currentAction := none } tp = none := by
      unfold getMovementVelocity
      rw [if_neg]
      exact not_lt.mpr hle
    rw [htick, hv]
    exact ⟨rfl, rfl, rfl, rfl, rfl, rfl⟩

/-- An entity one pixel away from its interpolation destination, with a
reserved sub-cell slot, moving at one pixel per tick. -/
def snapMover : EntityState :=
  { idleEntity with
      targetPosition := some ⟨1, 0⟩
      movementSpeed := 20
      targetSubCell := 2 }

/-- Counterexample to C7 as stated: the remaining distance (exactly 1) does
not exceed one tick's travel (exactly 1), and the tick does clear the
sub-cell bookkeeping and `targetPosition` — but it leaves the position at
`(0,0)` instead of snapping it to the destination `(1,0)`; the snap described
by the claim does not exist in the code. -/
theorem tick_no_snap_counterexample :
    snapMover.targetPosition = some ⟨1, 0⟩ ∧
    M0.sqrt (((1 : ℚ) - 0) ^ 2 + ((0 : ℚ) - 0) ^ 2) = 1 ∧
    snapMover.movementSpeed / SPEED_DIVIDER = 1 ∧
    (tick M0 createPathEmpty snapMover).1.subCell = 2 ∧
    (tick M0 createPathEmpty snapMover).1.targetSubCell = -1 ∧
    (tick M0 createPathEmpty snapMover).1.targetPosition = none ∧
    (tick M0 createPathEmpty snapMover).1.position = ⟨0, 0⟩ ∧
    (tick M0 createPathEmpty snapMover).1.position ≠ ⟨1, 0⟩ := by
  have htick := tick_eq_of_no_target M0 createPathEmpty snapMover rfl
  have hv : getMovementVelocity M0 { snapMover with currentAction := none }
      ⟨1, 0⟩ = none := by
    unfold getMovementVelocity
    rw [if_neg]
    norm_num [M0, snapMover, idleEntity, SPEED_DIVIDER]
  have hmove := tickAction_movement M0 (snapMover.rotationSpeed / TURNSPEED_DIVIDER)
    { snapMover with currentAction := none } ⟨1, 0⟩ rfl rfl rfl
  rw [hv] at hmove
  rw [hmove] at htick
  rw [htick]
  refine ⟨rfl, by norm_num [M0], by norm_num [snapMover, idleEntity, SPEED_DIVIDER],
    rfl, rfl, rfl, rfl, by decide⟩

/-- An entity within one tick's travel of its destination, used to
instantiate the amended movement theorem. -/
def nearMover : EntityState :=
  { idleEntity with
      targetPosition := some ⟨1, 0⟩
      movementSpeed := 20
      targetSubCell := 3 }

/-- Witness for the amended C7 theorem at a concrete input: the completion
branch clears the bookkeeping and leaves position and cell alone. -/
theorem tick_movement_step_witness :
    (tick M0 createPathEmpty nearMover).1.position = nearMover.position ∧
    (tick M0 createPathEmpty nearMover).1.subCell = nearMover.targetSubCell ∧
    (tick M0 createPathEmpty nearMover).1.targetSubCell = -1 ∧
    (tick M0 createPathEmpty nearMover).1.targetPosition = none ∧
    (tick M0 createPathEmpty nearMover).1.targetDirection = -1 ∧
    (tick M0 createPathEmpty nearMover).1.cell = nearMover.cell :=
  (tick_movement_step M0 createPathEmpty nearMover ⟨1, 0⟩ rfl rfl rfl).2
    (by norm_num [M0, nearMover, idleEntity, SPEED_DIVIDER])

/-- Truncating a coordinate before dividing by the cell size does not change
the resulting cell index: `⌊⌊x⌋ / 24⌋ = ⌊x / 24⌋`. -/
theorem floor_trunc_div_cell (x : ℚ) :
    ⌊((⌊x⌋ : ℚ)) / CELL_SIZE⌋ = ⌊x / CELL_SIZE⌋ := by
  unfold CELL_SIZE
  have h0 : ⌊((⌊x⌋ : ℚ)) / (24 : ℚ)⌋ = ⌊x⌋ / (24 : ℤ) := by
    rw [show ((24 : ℚ)) = ((24 : ℕ) : ℚ) by norm_num, Rat.floor_intCast_div_natCast]
    norm_num
  rw [h0]
  symm
  rw [Int.floor_eq_iff]
  refine ⟨?_, ?_⟩
  · rw [le_div_iff₀ (by norm_num : (0 : ℚ) < 24)]
    have h1 : ((⌊x⌋ / 24 : ℤ) : ℚ) * 24 ≤ ((⌊x⌋ : ℤ) : ℚ) := by
      have h2 : (⌊x⌋ / 24) * 24 ≤ ⌊x⌋ := by omega
      exact_mod_cast h2
    exact h1.trans (Int.floor_le x)
  · rw [div_lt_iff₀ (by norm_num : (0 : ℚ) < 24)]
    have h2 : ((⌊x⌋ : ℤ) : ℚ) + 1 ≤ (((⌊x⌋ / 24 : ℤ) : ℚ) + 1) * 24 := by
      have h3 : ⌊x⌋ + 1 ≤ (⌊x⌋ / 24 + 1) * 24 := by omega
      exact_mod_cast h3
    calc x < (⌊x⌋ : ℚ) + 1 := Int.lt_floor_add_one x
    _ ≤ _ := h2

/-- Truncating a position before `cellFromPoint` gives the same cell. -/
theorem cellFromPoint_trunc (p : VecQ) :
    cellFromPoint ⟨(⌊p.x⌋ : ℚ), (⌊p.y⌋ : ℚ)⟩ = cellFromPoint p := by
  unfold cellFromPoint
  rw [floor_trunc_div_cell, floor_trunc_div_cell]

/-- C8 (amended): the cell stays the truncation of the continuous position
for the mutations that request synchronisation, and for the per-tick movement
step: `setPosition p true` stores `cellFromPoint p`; `setCell c true` stores
`pointFromCell c`, whose `cellFromPoint` is `c` again; and the movement step
recomputes the cell as `cellFromPoint` of the truncated (equivalently,
untruncated) new position.  A bare `setPosition p false` — the source
default — stores the position *without* touching the cell (see the
counterexample). -/
theorem position_cell_sync (s : EntityState) (p : VecQ) (c : VecZ) :
    ((setPosition p true s).cell = cellFromPoint p ∧
      (setPosition p true s).position = p) ∧
    ((setCell c true s).cell = c ∧
      (setCell c true s).position = pointFromCell c ∧
      cellFromPoint (pointFromCell c) = c) ∧
    (∀ (M : MathLib) (cp : VecZ → VecZ → Bool → List VecZ) (tp : VecQ),
      s.targetEntity = none → s.targetDirection = -1 →
      s.targetPosition = some tp →
      s.movementSpeed / SPEED_DIVIDER <
        M.sqrt ((tp.x - s.position.x) ^ 2 + (tp.y - s.position.y) ^ 2) →
      (tick M cp s).1.cell = cellFromPoint (tick M cp s).1.position) := by
  refine ⟨⟨rfl, rfl⟩, ⟨rfl, rfl, ?_⟩, ?_⟩
  · unfold cellFromPoint pointFromCell CELL_SIZE
    have hx : ((c.x : ℚ) * 24) / 24 = (c.x : ℚ) := by ring
    have hy : ((c.y : ℚ) * 24) / 24 = (c.y : ℚ) := by ring
    rw [hx, hy, Int.floor_intCast, Int.floor_intCast]
  · intro M cp tp h1 h2 h3 hgt
    have htick := tick_eq_of_no_target M cp s h1
    have hmove := tickAction_movement M (s.rotationSpeed / TURNSPEED_DIVIDER)
      { s with currentAction := none } tp rfl h2 h3
    have hv : getMovementVelocity M { s with currentAction := none } tp =
        some (movementVel M { s with currentAction := none } tp) := by
      unfold getMovementVelocity
      rw [if_pos]
      exact hgt
    rw [hv] at hmove
    rw [hmove] at htick
    rw [htick]
    exact (cellFromPoint_trunc _).symm ▸ cellFromPoint_trunc _

/-- Counterexample to C8 as stated: `setPosition` with its default
`updateCell = false` (the form the code uses on every construction and
sub-cell adjustment) moves the entity's position four cells away while the
stored cell stays `(0,0)` — the claimed invariant does not hold for this
position mutation. -/
theorem setPosition_no_sync_counterexample :
    (setPosition ⟨100, 0⟩ false idleEntity).position = ⟨100, 0⟩ ∧
    (setPosition ⟨100, 0⟩ false idleEntity).cell = ⟨0, 0⟩ ∧
    cellFromPoint ⟨100, 0⟩ = ⟨4, 0⟩ ∧
    (setPosition ⟨100, 0⟩ false idleEntity).cell ≠
      cellFromPoint (setPosition ⟨100, 0⟩ false idleEntity).position := by
  have h4 : cellFromPoint ⟨100, 0⟩ = ⟨4, 0⟩ := by
    unfold cellFromPoint CELL_SIZE
    have hx : ⌊(100 : ℚ) / 24⌋ = 4 := by norm_num
    have hy : ⌊(0 : ℚ) / 24⌋ = 0 := by norm_num
    rw [show (VecQ.mk 100 0).x = (100 : ℚ) from rfl,
      show (VecQ.mk 100 0).y = (0 : ℚ) from rfl, hx, hy]
  refine ⟨rfl, rfl, h4, ?_⟩
  rw [show (setPosition ⟨100, 0⟩ false idleEntity).cell = (⟨0, 0⟩ : VecZ) from rfl]
  rw [show (setPosition ⟨100, 0⟩ false idleEntity).position = (⟨100, 0⟩ : VecQ) from rfl]
  rw [h4]
  decide

/-- Witness for the amended C8 theorem at a concrete input. -/
theorem position_cell_sync_witness :
    ((setPosition ⟨100, 0⟩ true idleEntity).cell = cellFromPoint ⟨100, 0⟩ ∧
      (setPosition ⟨100, 0⟩ true idleEntity).position = ⟨100, 0⟩) ∧
    ((setCell ⟨5, 7⟩ true idleEntity).cell = ⟨5, 7⟩ ∧
      (setCell ⟨5, 7⟩ true idleEntity).position = pointFromCell ⟨5, 7⟩ ∧
      cellFromPoint (pointFromCell ⟨5, 7⟩) = ⟨5, 7⟩) :=
  ⟨(position_cell_sync idleEntity ⟨100, 0⟩ ⟨5, 7⟩).1,
    (position_cell_sync idleEntity ⟨100, 0⟩ ⟨5, 7⟩).2.1⟩

/-- A map object as `src/game/map.js` sees it: tile anchor, optional
rectangular size, the `OccupyList` pattern from its options, its owning
player (`null` = neutral) and whether `isBlocking()` holds this tick (the
per-class method lives in the object classes).  `isMapObject` records
`object instanceof MapObject` — `Map.load` also stamps plain
`{tileX, tileY, id}` records for terrain tiles, which are not map objects. -/
structure MapObject where
  id : ℤ
  tileX : ℤ
  tileY : ℤ
  sizeX : ℤ
  sizeY : ℤ
  isMapObject : Bool
  occupyList : Option (List (List ℤ))
  player : Option ℤ
  blocking : Bool
deriving DecidableEq, Repr

/-- A grid cell entry `{id, value, object}` as stored by `Map.addToGrid`. -/
structure GridEntry where
  id : Option ℤ
  value : ℤ
  object : Option MapObject
deriving DecidableEq, Repr

/-- The default entry `{value: 0, id: null, object: null}` that
`Map.getGrid` resolves absent cells to. -/
def defaultEntry : GridEntry := { id := none, value := 0, object := none }

/-- A grid layer: JavaScript's array-of-arrays with holes and unchecked
integer indexing, modelled as a total function `row ↦ column ↦ entry?`.
The row arrays exist exactly for `0 ≤ y < tilesY` (enforced at each access
site), and reading any absent column of an existing row yields `none`. -/
def GridFn : Type := ℤ → ℤ → Option GridEntry

/-- The relevant state of the `Map` class (`src/game/map.js`). -/
structure JSMap where
  tilesX : ℤ
  tilesY : ℤ
  baseGrid : GridFn
  grid : GridFn
  previousGrid : GridFn
  objects : List MapObject

/-- The `add` closure of `Map.addToGrid` (map.js lines 439-443):
`if (this.grid[y]) { this.grid[y][x] = e; }` — a no-op when row `y` does not
exist (rows exist exactly for `0 ≤ y < tilesY`); within an existing row
JavaScript stores the entry at *any* integer column index without a bounds
check, and never raises. -/
def gridAdd (tilesY : ℤ) (g : GridFn) (x y : ℤ) (e : GridEntry) : GridFn :=
  if 0 ≤ y ∧ y < tilesY then
    fun y' x' => if y' = y ∧ x' = x then some e else g y' x'
  else g

/-- The `(x, y)` coordinates `Map.addToGrid` writes for an object, in loop
order: the `OccupyList` pattern cells equal to `1` when the object is a map
object with a pattern; else the `sizeX × sizeY` rectangle when both sizes are
truthy; else the single anchor cell. -/
def stampCells (o : MapObject) : List (ℤ × ℤ) :=
  match (if o.isMapObject then o.occupyList else none) with
  | some pattern =>
    pattern.enum.bind fun py =>
      py.2.enum.filterMap fun px =>
        if px.2 = 1 then some (o.tileX + (px.1 : ℤ), o.tileY + (py.1 : ℤ))
        else none
  | none =>
    if o.sizeX ≠ 0 ∧ o.sizeY ≠ 0 then
      (List.range o.sizeY.toNat).bind fun y =>
        (List.range o.sizeX.toNat).map fun x =>
          (o.tileX + (x : ℤ), o.tileY + (y : ℤ))
    else [(o.tileX, o.tileY)]

/-- The entry `Map.addToGrid` stamps: object id, the given weight, and the
occupant back-reference (only map objects carry one). -/
def stampEntry (o : MapObject) (value : ℤ) : GridEntry :=
  { id := some o.id
    value := value
    object := if o.isMapObject then some o else none }

/-- `Map.addToGrid` (map.js lines 438-471): writes the entry at every
footprint coordinate through `add`. -/
def addToGrid (tilesY : ℤ) (g : GridFn) (o : MapObject) (value : ℤ) : GridFn :=
  (stampCells o).foldl (fun g c => gridAdd tilesY g c.1 c.2 (stampEntry o value)) g

/-- `Map.getGrid` (map.js lines 494-498): resolves a cell of the current (or
previous, when `p`) grid, defaulting to `{value: 0, id: null, object: null}`
for a missing row, a hole, or any unwritten index; never raises. -/
def getGrid (m : JSMap) (x y : ℤ) (p : Bool) : GridEntry :=
  let g := if p then m.previousGrid else m.grid
  match (if 0 ≤ y ∧ y < m.tilesY then g y x else none) with
  | some e => e
  | none => defaultEntry

/-- `Map.queryGrid` (map.js lines 482-485) with the `value` key: the resolved
entry's weight. -/
def queryGridValue (m : JSMap) (x y : ℤ) (p : Bool) : ℤ :=
  (getGrid m x y p).value

/-- The loop body sequence of `Map.update` (map.js lines 210-217): each
object runs its per-class `update()` (external to map.js, passed in as `u`,
observing the grid as rebuilt so far) and, if blocking, stamps its footprint
with the default weight 100. -/
def updateObjects (tilesY : ℤ) (u : MapObject → GridFn → MapObject) :
    List MapObject → GridFn → GridFn × List MapObject
  | [], g => (g, [])
  | o :: rest, g =>
    let o2 := u o g
    let g2 := if o2.blocking then addToGrid tilesY g o2 100 else g
    let r := updateObjects tilesY u rest g2
    (r.1, o2 :: r.2)

/-- `Map.update` (map.js lines 204-218): snapshot the current grid into
`previousGrid`, reset the grid from the immutable `baseGrid`, then update
every object and stamp the blocking ones.  `copy` (from `engine/util`,
external to these sources) is a deep copy, which on this pure value model is
the identity; `fog.update()` touches only the fog layer. -/
def mapUpdate (u : MapObject → GridFn → MapObject) (m : JSMap) : JSMap :=
  let r := updateObjects m.tilesY u m.objects m.baseGrid
  { m with previousGrid := m.grid, grid := r.1, objects := r.2 }

/-- Pointwise behaviour of the `add` closure. -/
theorem gridAdd_apply (tilesY : ℤ) (g : GridFn) (x y : ℤ) (e : GridEntry)
    (y' x' : ℤ) :
    gridAdd tilesY g x y e y' x' =
      if (0 ≤ y ∧ y < tilesY) ∧ y' = y ∧ x' = x then some e else g y' x' := by
  unfold gridAdd
  by_cases h : 0 ≤ y ∧ y < tilesY
  · rw [if_pos h]
    by_cases h2 : y' = y ∧ x' = x
    · rw [if_pos h2, if_pos ⟨h, h2⟩]
    · rw [if_neg h2, if_neg (by tauto)]
  · rw [if_neg h, if_neg (by tauto)]

/-- Pointwise behaviour of a fold of `add`s all writing the same entry. -/
theorem foldl_gridAdd_apply (tilesY : ℤ) (e : GridEntry) :
    ∀ (L : List (ℤ × ℤ)) (g : GridFn) (y x : ℤ),
      (L.foldl (fun g c => gridAdd tilesY g c.1 c.2 e) g) y x =
        if (0 ≤ y ∧ y < tilesY) ∧ (x, y) ∈ L then some e else g y x := by
  intro L
  induction L with
  | nil => intro g y x; simp
  | cons c L ih =>
    intro g y x
    rw [List.foldl_cons, ih]
    rw [gridAdd_apply]
    by_cases h1 : 0 ≤ y ∧ y < tilesY
    · by_cases h2 : (x, y) ∈ L
      · rw [if_pos ⟨h1, h2⟩, if_pos ⟨h1, List.mem_cons_of_mem c h2⟩]
      · rw [if_neg (by tauto)]
        by_cases h3 : (x, y) = c
        · have h4 : y = c.2 ∧ x = c.1 := by
            rw [Prod.ext_iff] at h3
            exact ⟨h3.2, h3.1⟩
          rw [if_pos ⟨(h4.1 ▸ h1), h4.1, h4.2⟩,
            if_pos ⟨h1, List.mem_cons.mpr (Or.inl h3)⟩]
        · rw [if_neg, if_neg]
          · intro hc
            rcases hc with ⟨-, hmem⟩
            rcases List.mem_cons.mp hmem with h | h
            · exact h3 h
            · exact h2 h
          · intro hc
            rcases hc with ⟨-, hy, hx⟩
            exact h3 (by rw [Prod.ext_iff]; exact ⟨hx, hy⟩)
    · rw [if_neg (by tauto), if_neg (by omega), if_neg (by tauto)]

/-- Pointwise behaviour of `Map.addToGrid`: exactly the footprint cells whose
row exists receive the stamp entry; everything else is untouched. -/
theorem addToGrid_apply (tilesY : ℤ) (g : GridFn) (o : MapObject) (v : ℤ)
    (y x : ℤ) :
    addToGrid tilesY g o v y x =
      if (0 ≤ y ∧ y < tilesY) ∧ (x, y) ∈ stampCells o
      then some (stampEntry o v) else g y x := by
  unfold addToGrid
  exact foldl_gridAdd_apply tilesY (stampEntry o v) (stampCells o) g y x

/-- Unfolding equation for `updateObjects` on the empty list. -/
theorem updateObjects_nil (tilesY : ℤ) (u : MapObject → GridFn → MapObject)
    (g : GridFn) : updateObjects tilesY u [] g = (g, []) := rfl

/-- Unfolding equation for `updateObjects` on a cons. -/
theorem updateObjects_cons (tilesY : ℤ) (u : MapObject → GridFn → MapObject)
    (o : MapObject) (l : List MapObject) (g : GridFn) :
    updateObjects tilesY u (o :: l) g =
      ((updateObjects tilesY u l
          (if (u o g).blocking = true then addToGrid tilesY g (u o g) 100 else g)).1,
        u o g :: (updateObjects tilesY u l
          (if (u o g).blocking = true then addToGrid tilesY g (u o g) 100 else g)).2) :=
  rfl

/-- Pointwise characterisation of the grid produced by the update loop: a
cell holds the weight-100 stamp of one of the (updated) blocking objects
whose footprint covers it, and otherwise exactly the starting layer's
entry. -/
theorem updateObjects_apply (tilesY : ℤ) (u : MapObject → GridFn → MapObject) :
    ∀ (l : List MapObject) (g : GridFn) (y x : ℤ),
      if (0 ≤ y ∧ y < tilesY) ∧ ∃ o ∈ (updateObjects tilesY u l g).2,
          o.blocking = true ∧ (x, y) ∈ stampCells o
      then ∃ o ∈ (updateObjects tilesY u l g).2, o.blocking = true ∧
          (x, y) ∈ stampCells o ∧
          (updateObjects tilesY u l g).1 y x = some (stampEntry o 100)
      else (updateObjects tilesY u l g).1 y x = g y x := by
  intro l
  induction l with
  | nil =>
    intro g y x
    rw [updateObjects_nil]
    simp
  | cons o l ih =>
    intro g y x
    rw [updateObjects_cons]
    dsimp only
    set g2 := (if (u o g).blocking = true then addToGrid tilesY g (u o g) 100 else g)
      with hg2
    by_cases hrow : 0 ≤ y ∧ y < tilesY
    · by_cases hex : ∃ o2 ∈ (updateObjects tilesY u l g2).2,
          o2.blocking = true ∧ (x, y) ∈ stampCells o2
      · obtain ⟨o2, hmem, hb, hcov, heq⟩ := by
          have hkey := ih g2 y x
          rw [if_pos ⟨hrow, hex⟩] at hkey
          exact hkey
        rw [if_pos ⟨hrow, ⟨o2, List.mem_cons_of_mem _ hmem, hb, hcov⟩⟩]
        exact ⟨o2, List.mem_cons_of_mem _ hmem, hb, hcov, heq⟩
      · have hkey : (updateObjects tilesY u l g2).1 y x = g2 y x := by
          have := ih g2 y x
          rwa [if_neg (fun hc => hex hc.2)] at this
        by_cases ho : (u o g).blocking = true ∧ (x, y) ∈ stampCells (u o g)
        · have hg2x : g2 y x = some (stampEntry (u o g) 100) := by
            rw [hg2, if_pos ho.1, addToGrid_apply, if_pos ⟨hrow, ho.2⟩]
          rw [if_pos ⟨hrow, ⟨u o g, List.mem_cons_self _ _, ho.1, ho.2⟩⟩]
          exact ⟨u o g, List.mem_cons_self _ _, ho.1, ho.2, by rw [hkey, hg2x]⟩
        · have hg2x : g2 y x = g y x := by
            by_cases hb : (u o g).blocking = true
            · rw [hg2, if_pos hb, addToGrid_apply, if_neg]
              intro hc
              exact ho ⟨hb, hc.2⟩
            · rw [hg2, if_neg hb]
          rw [if_neg, hkey, hg2x]
          intro hc
          rcases hc with ⟨-, o2, hmem, hb, hcov⟩
          rcases List.mem_cons.mp hmem with h | h
          · exact ho ⟨h ▸ hb, h ▸ hcov⟩
          · exact hex ⟨o2, h, hb, hcov⟩
    · have hkey : (updateObjects tilesY u l g2).1 y x = g2 y x := by
        have := ih g2 y x
        rwa [if_neg (fun hc => hrow hc.1)] at this
      have hg2x : g2 y x = g y x := by
        by_cases hb : (u o g).blocking = true
        · rw [hg2, if_pos hb, addToGrid_apply, if_neg (by tauto)]
        · rw [hg2, if_neg hb]
      rw [if_neg (fun hc => hrow hc.1), hkey, hg2x]

/-- C5: after `Map.update`, the previous grid is exactly the current grid
from the end of the preceding tick, the immutable base layer is untouched,
and the current grid is the base layer plus exactly the footprint stamps of
this tick's blocking (post-update) objects — each stamped cell holding the
weight-100 entry with the occupant back-reference, each unstamped cell
holding the base entry. -/
theorem mapUpdate_grid_spec (m : JSMap) (u : MapObject → GridFn → MapObject) :
    (mapUpdate u m).previousGrid = m.grid ∧
    (mapUpdate u m).baseGrid = m.baseGrid ∧
    (mapUpdate u m).tilesX = m.tilesX ∧
    (mapUpdate u m).tilesY = m.tilesY ∧
    (∀ y x : ℤ,
      if (0 ≤ y ∧ y < m.tilesY) ∧ ∃ o ∈ (mapUpdate u m).objects,
          o.blocking = true ∧ (x, y) ∈ stampCells o
      then ∃ o ∈ (mapUpdate u m).objects, o.blocking = true ∧
          (x, y) ∈ stampCells o ∧
          (mapUpdate u m).grid y x = some (stampEntry o 100)
      else (mapUpdate u m).grid y x = m.baseGrid y x) ∧
    (∀ (o : MapObject) (v : ℤ), (stampEntry o v).value = v ∧
      (o.isMapObject = true → (stampEntry o v).object = some o)) := by
  refine ⟨rfl, rfl, rfl, rfl, ?_, ?_⟩
  · intro y x
    exact updateObjects_apply m.tilesY u m.objects m.baseGrid y x
  · intro o v
    refine ⟨rfl, ?_⟩
    intro h
    unfold stampEntry
    rw [if_pos h]

/-- The everywhere-empty grid layer. -/
def emptyGridFn : GridFn := fun _ _ => none

/-- A blocking unit standing at tile `(1, 0)` — one column beyond the right
edge of a 1×1 map. -/
def edgeObject : MapObject :=
  { id := 7
    tileX := 1
    tileY := 0
    sizeX := 0
    sizeY := 0
    isMapObject := true
    occupyList := none
    player := some 1
    blocking := true }

/-- A 1×1 map whose only object stands one column out of bounds. -/
def tinyMap : JSMap :=
  { tilesX := 1
    tilesY := 1
    baseGrid := emptyGridFn
    grid := emptyGridFn
    previousGrid := emptyGridFn
    objects := [edgeObject] }

/-- The identity per-object update (objects that do nothing in their
`update()`). -/
def idUpdate : MapObject → GridFn → MapObject := fun o _ => o

/-- Witness for C5 at a concrete input. -/
theorem mapUpdate_grid_spec_witness :
    (mapUpdate idUpdate tinyMap).previousGrid = tinyMap.grid ∧
    (mapUpdate idUpdate tinyMap).baseGrid = tinyMap.baseGrid :=
  ⟨(mapUpdate_grid_spec tinyMap idUpdate).1,
    (mapUpdate_grid_spec tinyMap idUpdate).2.1⟩

/-- A map state whose grid layers hold entries only at in-bounds column
indices (true of any state whose stamps all landed in bounds). -/
def ColumnBounded (m : JSMap) : Prop :=
  ∀ y x : ℤ, ¬ (0 ≤ x ∧ x < m.tilesX) →
    m.grid y x = none ∧ m.previousGrid y x = none

/-- C6 (amended): grid queries never raise (the resolver is total), and for a
coordinate with an out-of-bounds row they always return the default entry, on
both the current and the previous snapshot; for an out-of-bounds column the
default is returned provided the row holds no stray entry at that column —
`addToGrid` bounds-checks only the row, so an out-of-bounds column that was
stamped earlier is returned verbatim (see the counterexample). -/
theorem getGrid_oob_default (m : JSMap) (x y : ℤ) (p : Bool) :
    (¬ (0 ≤ y ∧ y < m.tilesY) →
      getGrid m x y p = defaultEntry ∧ queryGridValue m x y p = 0) ∧
    (ColumnBounded m → ¬ (0 ≤ x ∧ x < m.tilesX ∧ 0 ≤ y ∧ y < m.tilesY) →
      getGrid m x y p = defaultEntry ∧ queryGridValue m x y p = 0) := by
  have hrow : ¬ (0 ≤ y ∧ y < m.tilesY) →
      getGrid m x y p = defaultEntry := by
    intro h
    unfold getGrid
    dsimp only
    rw [if_neg h]
  refine ⟨fun h => ⟨hrow h, by unfold queryGridValue; rw [hrow h]; rfl⟩, ?_⟩
  intro hcb hoob
  by_cases hy : 0 ≤ y ∧ y < m.tilesY
  · have hx : ¬ (0 ≤ x ∧ x < m.tilesX) := by tauto
    have hnone := hcb y x hx
    have hmain : getGrid m x y p = defaultEntry := by
      unfold getGrid
      dsimp only
      rw [if_pos hy]
      cases p
      · show (match m.grid y x with
          | some e => e
          | none => defaultEntry) = defaultEntry
        rw [hnone.1]
      · show (match m.previousGrid y x with
          | some e => e
          | none => defaultEntry) = defaultEntry
        rw [hnone.2]
    exact ⟨hmain, by unfold queryGridValue; rw [hmain]; rfl⟩
  · exact ⟨hrow hy, by unfold queryGridValue; rw [hrow hy]; rfl⟩

/-- Counterexample to C6 as stated: on a 1×1 map, stamping the blocking
object standing at tile `(1, 0)` (a legal operation — `addToGrid` checks
only the row index) makes the out-of-bounds query `getGrid(1, 0)` return
that stamp instead of the default entry. -/
theorem getGrid_oob_counterexample :
    tinyMap.tilesX = 1 ∧
    ¬ (0 ≤ (1 : ℤ) ∧ (1 : ℤ) < tinyMap.tilesX) ∧
    getGrid (mapUpdate idUpdate tinyMap) 1 0 false = stampEntry edgeObject 100 ∧
    getGrid (mapUpdate idUpdate tinyMap) 1 0 false ≠ defaultEntry := by
  refine ⟨rfl, by decide, ?_, ?_⟩ <;> decide

/-- Witness for the amended C6 theorem at a concrete input: on the 1×1 map
with empty layers, the query five columns out returns the default. -/
theorem getGrid_oob_default_witness :
    getGrid tinyMap 5 0 false = defaultEntry ∧
    queryGridValue tinyMap 5 0 false = 0 :=
  (getGrid_oob_default tinyMap 5 0 false).2
    (fun y x h => ⟨rfl, rfl⟩) (by decide)

/-- The pathfinding grid of the TypeScript `GameMap` (`map.ts`, external to
these sources): per-cell walkability flags with the map dimensions. -/
structure WalkGrid where
  width : ℤ
  height : ℤ
  walk : ℤ → ℤ → Bool

/-- Modelled from the spec: the Grid's `setWalkable(x, y, walkable)` "fails
silently (no-op) for out-of-bounds coordinates; used to toggle an entity's
footprint cells as blocked/free".  The underlying `PF.Grid.setWalkableAt`
of the external `pathfinding` package throws on out-of-bounds input and the
caller in `mapentity.ts` catches the exception, so the net effect is this
bounds-guarded update. -/
def setWalkableAt (w : WalkGrid) (x y : ℤ) (t : Bool) : WalkGrid :=
  if 0 ≤ x ∧ x < w.width ∧ 0 ≤ y ∧ y < w.height then
    { w with walk := fun a b => if a = x ∧ b = y then t else w.walk a b }
  else w

/-- An occupancy pattern as `toggleWalkableTiles` reads it (the `MIXGrid`
type is declared in `mix.ts`, external to these sources; the method accesses
`occupy.grid[y][x] === 'x'`). -/
structure MIXGrid where
  grid : List (List Char)
deriving DecidableEq

/-- The cells `GameMapEntity.toggleWalkableTiles` touches, in loop order:
the loop runs `y` over the pattern's row count and `x` over the *first*
row's width, toggling exactly the cells marked `'x'` (reads past a short
row yield `undefined ≠ 'x'` and are skipped). -/
def toggleCells (occupy : Option MIXGrid) (cell : VecZ) : List (ℤ × ℤ) :=
  match occupy with
  | none => []
  | some oc =>
    let h := oc.grid.length
    let w := if h > 0 then (oc.grid.headD []).length else 0
    (List.range h).bind fun y =>
      (List.range w).filterMap fun x =>
        if (oc.grid.get? y).bind (fun row => row.get? x) = some 'x'
        then some (cell.x + (x : ℤ), cell.y + (y : ℤ))
        else none

/-- `GameMapEntity.toggleWalkableTiles` (`src/game/entities/mapentity.ts`,
lines 402-422): sets every `'x'` footprint cell's walkability to `t`; a
missing `occupy` pattern makes it a no-op, and each `setWalkableAt` call is
wrapped in try/catch so out-of-bounds cells are skipped silently. -/
def toggleWalkableTiles (w : WalkGrid) (occupy : Option MIXGrid) (cell : VecZ)
    (t : Bool) : WalkGrid :=
  (toggleCells occupy cell).foldl (fun w c => setWalkableAt w c.1 c.2 t) w

/-- C9: marking an out-of-bounds coordinate in the grid is silent and leaves
every in-bounds grid cell unchanged — the model is total (JavaScript's array
write on an existing row and the caught `setWalkableAt` exception never
propagate), an out-of-row-range `add` is a complete no-op, an `add` at any
out-of-bounds coordinate leaves all in-bounds cells untouched, a footprint
stamp (pattern-based or rectangle-based alike, both being folds of `add`
over `stampCells`) whose cells are all out of bounds leaves all in-bounds
cells untouched, and the spec's `setWalkable` is a no-op out of bounds. -/
theorem oob_marking_silent (tilesX tilesY : ℤ) (g : GridFn) :
    (∀ (x y : ℤ) (e : GridEntry), ¬ (0 ≤ y ∧ y < tilesY) →
      gridAdd tilesY g x y e = g) ∧
    (∀ (x y : ℤ) (e : GridEntry) (x' y' : ℤ),
      ¬ (0 ≤ x ∧ x < tilesX ∧ 0 ≤ y ∧ y < tilesY) →
      (0 ≤ x' ∧ x' < tilesX ∧ 0 ≤ y' ∧ y' < tilesY) →
      gridAdd tilesY g x y e y' x' = g y' x') ∧
    (∀ (o : MapObject) (v : ℤ) (x' y' : ℤ),
      (∀ c ∈ stampCells o, ¬ (0 ≤ c.1 ∧ c.1 < tilesX ∧ 0 ≤ c.2 ∧ c.2 < tilesY)) →
      (0 ≤ x' ∧ x' < tilesX ∧ 0 ≤ y' ∧ y' < tilesY) →
      addToGrid tilesY g o v y' x' = g y' x') ∧
    (∀ (w : WalkGrid) (x y : ℤ) (t : Bool),
      ¬ (0 ≤ x ∧ x < w.width ∧ 0 ≤ y ∧ y < w.height) →
      setWalkableAt w x y t = w) := by
  refine ⟨?_, ?_, ?_, ?_⟩
  · intro x y e h
    unfold gridAdd
    rw [if_neg h]
  · intro x y e x' y' hoob hin
    rw [gridAdd_apply, if_neg]
    intro hc
    exact hoob (by omega)
  · intro o v x' y' hall hin
    rw [addToGrid_apply, if_neg]
    intro hc
    exact hall (x', y') hc.2 (by omega)
  · intro w x y t h
    unfold setWalkableAt
    rw [if_neg h]

/-- A 1×1 pattern with a single occupied cell. -/
def singleCellObject : MapObject :=
  { id := 9
    tileX := 5
    tileY := 5
    sizeX := 0
    sizeY := 0
    isMapObject := true
    occupyList := some [[1]]
    player := some 0
    blocking := true }

/-- Witness for C9 at a concrete input: stamping a pattern entirely outside
a 2×2 grid leaves the in-bounds cell `(0,0)` untouched, and the spec-level
`setWalkable` out of bounds is the identity. -/
theorem oob_marking_silent_witness :
    addToGrid 2 emptyGridFn singleCellObject 100 0 0 = emptyGridFn 0 0 ∧
    setWalkableAt ⟨2, 2, fun _ _ => true⟩ 5 5 false = ⟨2, 2, fun _ _ => true⟩ :=
  ⟨(oob_marking_silent 2 2 emptyGridFn).2.2.1 singleCellObject 100 0 0
      (by decide) (by decide),
    (oob_marking_silent 2 2 emptyGridFn).2.2.2 ⟨2, 2, fun _ _ => true⟩ 5 5 false
      (by decide)⟩

/-- `setWalkableAt` never changes the grid dimensions. -/
theorem setWalkableAt_dims (w : WalkGrid) (x y : ℤ) (t : Bool) :
    (setWalkableAt w x y t).width = w.width ∧
    (setWalkableAt w x y t).height = w.height := by
  unfold setWalkableAt
  split_ifs <;> exact ⟨rfl, rfl⟩

/-- Pointwise behaviour of `setWalkableAt`. -/
theorem setWalkableAt_walk (w : WalkGrid) (x y : ℤ) (t : Bool) (a b : ℤ) :
    (setWalkableAt w x y t).walk a b =
      if (a = x ∧ b = y) ∧ (0 ≤ x ∧ x < w.width ∧ 0 ≤ y ∧ y < w.height) then t
      else w.walk a b := by
  unfold setWalkableAt
  by_cases h : 0 ≤ x ∧ x < w.width ∧ 0 ≤ y ∧ y < w.height
  · rw [if_pos h]
    dsimp only
    by_cases h2 : a = x ∧ b = y
    · rw [if_pos h2, if_pos ⟨h2, h⟩]
    · rw [if_neg h2, if_neg (fun hc => h2 hc.1)]
  · rw [if_neg h, if_neg (fun hc => h hc.2)]

/-- A fold of `setWalkableAt`s preserves the dimensions. -/
theorem foldl_setWalkableAt_dims (t : Bool) :
    ∀ (L : List (ℤ × ℤ)) (w : WalkGrid),
      (L.foldl (fun w c => setWalkableAt w c.1 c.2 t) w).width = w.width ∧
      (L.foldl (fun w c => setWalkableAt w c.1 c.2 t) w).height = w.height := by
  intro L
  induction L with
  | nil => intro w; exact ⟨rfl, rfl⟩
  | cons c L ih =>
    intro w
    rw [List.foldl_cons]
    refine ⟨?_, ?_⟩
    · rw [(ih _).1, (setWalkableAt_dims w c.1 c.2 t).1]
    · rw [(ih _).2, (setWalkableAt_dims w c.1 c.2 t).2]

/-- Pointwise behaviour of a fold of `setWalkableAt`s all writing the same
flag: exactly the listed in-bounds cells are set to `t`. -/
theorem foldl_setWalkableAt_walk (t : Bool) :
    ∀ (L : List (ℤ × ℤ)) (w : WalkGrid) (a b : ℤ),
      (L.foldl (fun w c => setWalkableAt w c.1 c.2 t) w).walk a b =
        if (a, b) ∈ L ∧ (0 ≤ a ∧ a < w.width ∧ 0 ≤ b ∧ b < w.height) then t
        else w.walk a b := by
  intro L
  induction L with
  | nil => intro w a b; simp
  | cons c L ih =>
    intro w a b
    rw [List.foldl_cons, ih]
    rw [(setWalkableAt_dims w c.1 c.2 t).1, (setWalkableAt_dims w c.1 c.2 t).2]
    rw [setWalkableAt_walk]
    by_cases hin : 0 ≤ a ∧ a < w.width ∧ 0 ≤ b ∧ b < w.height
    · by_cases h2 : (a, b) ∈ L
      · rw [if_pos ⟨h2, hin⟩, if_pos ⟨List.mem_cons_of_mem c h2, hin⟩]
      · rw [if_neg (fun hc => h2 hc.1)]
        by_cases h3 : (a, b) = c
        · have h4 : a = c.1 ∧ b = c.2 := by
            rw [Prod.ext_iff] at h3
            exact ⟨h3.1, h3.2⟩
          rw [if_pos ⟨h4, h4.1 ▸ h4.2 ▸ hin⟩,
            if_pos ⟨List.mem_cons.mpr (Or.inl h3), hin⟩]
        · rw [if_neg, if_neg]
          · intro hc
            rcases List.mem_cons.mp hc.1 with h | h
            · exact h3 h
            · exact h2 h
          · intro hc
            exact h3 (by rw [Prod.ext_iff]; exact ⟨hc.1.1, hc.1.2⟩)
    · have hnc1 : ¬ ((a, b) ∈ L ∧
          (0 ≤ a ∧ a < w.width ∧ 0 ≤ b ∧ b < w.height)) :=
        fun hc => hin hc.2
      have hnc2 : ¬ ((a, b) ∈ c :: L ∧
          (0 ≤ a ∧ a < w.width ∧ 0 ≤ b ∧ b < w.height)) :=
        fun hc => hin hc.2
      have hnc3 : ¬ ((a = c.1 ∧ b = c.2) ∧
          (0 ≤ c.1 ∧ c.1 < w.width ∧ 0 ≤ c.2 ∧ c.2 < w.height)) := by
        intro hc
        obtain ⟨⟨h5, h6⟩, h7⟩ := hc
        subst h5
        subst h6
        exact hin h7
      rw [if_neg hnc1, if_neg hnc3, if_neg hnc2]

/-- C10 (amended): constructing an entity (marking its footprint unwalkable)
and then destroying it (marking the footprint walkable) restores the grid's
walkable state exactly when every in-bounds footprint cell was walkable
before construction; in general the destroy step forces the footprint cells
walkable rather than restoring their previous state (see the
counterexample), and all other cells are untouched either way. -/
theorem toggleWalkableTiles_roundtrip (w : WalkGrid) (occupy : Option MIXGrid)
    (cell : VecZ)
    (hpre : ∀ c ∈ toggleCells occupy cell,
      (0 ≤ c.1 ∧ c.1 < w.width ∧ 0 ≤ c.2 ∧ c.2 < w.height) →
      w.walk c.1 c.2 = true) :
    ∀ a b : ℤ,
      (toggleWalkableTiles (toggleWalkableTiles w occupy cell false)
        occupy cell true).walk a b = w.walk a b := by
  intro a b
  unfold toggleWalkableTiles
  rw [foldl_setWalkableAt_walk, foldl_setWalkableAt_walk]
  rw [(foldl_setWalkableAt_dims false (toggleCells occupy cell) w).1,
    (foldl_setWalkableAt_dims false (toggleCells occupy cell) w).2]
  by_cases h : (a, b) ∈ toggleCells occupy cell ∧
      (0 ≤ a ∧ a < w.width ∧ 0 ≤ b ∧ b < w.height)
  · rw [if_pos h, (hpre (a, b) h.1 h.2)]
  · rw [if_neg h, if_neg h]

/-- A 1×1 pathfinding grid whose only cell is blocked. -/
def blockedGrid : WalkGrid := ⟨1, 1, fun _ _ => false⟩

/-- A 2×2 pathfinding grid with every cell walkable. -/
def openGrid : WalkGrid := ⟨2, 2, fun _ _ => true⟩

/-- A single-cell `'x'` occupancy pattern. -/
def crossOccupy : MIXGrid := ⟨[['x']]⟩

/-- Counterexample to C10 as stated: the cell under the footprint was
*unwalkable* before construction; construct→destroy leaves it walkable, so
the grid does not return to its pre-construction state — the destroy step
sets footprint cells walkable unconditionally instead of restoring them. -/
theorem toggleWalkableTiles_roundtrip_counterexample :
    blockedGrid.walk 0 0 = false ∧
    (toggleWalkableTiles (toggleWalkableTiles blockedGrid (some crossOccupy)
      ⟨0, 0⟩ false) (some crossOccupy) ⟨0, 0⟩ true).walk 0 0 = true := by
  refine ⟨rfl, ?_⟩
  decide

/-- Witness for the amended C10 theorem at a concrete input: on an all-
walkable grid the construct→destroy round trip restores every cell. -/
theorem toggleWalkableTiles_roundtrip_witness :
    (toggleWalkableTiles (toggleWalkableTiles openGrid (some crossOccupy)
      ⟨0, 0⟩ false) (some crossOccupy) ⟨0, 0⟩ true).walk 0 0 =
      openGrid.walk 0 0 ∧
    (toggleWalkableTiles (toggleWalkableTiles openGrid (some crossOccupy)
      ⟨0, 0⟩ false) (some crossOccupy) ⟨0, 0⟩ true).walk 1 1 =
      openGrid.walk 1 1 :=
  ⟨toggleWalkableTiles_roundtrip openGrid (some crossOccupy) ⟨0, 0⟩
      (by decide) 0 0,
    toggleWalkableTiles_roundtrip openGrid (some crossOccupy) ⟨0, 0⟩
      (by decide) 1 1⟩

/-- Modelled from the spec: `TILE_SIZE` is defined in `src/game/globals.js`,
which is not among these sources; it equals the TypeScript `CELL_SIZE`
(24 pixels per tile). -/
def TILE_SIZE : ℚ := 24

/-- Modelled from the spec: `tileFromPoint` comes from the JavaScript
`physics.js`, which is not among these sources; like `cellFromPoint` it
floors each pixel coordinate divided by the tile size. -/
def tileFromPoint (x y : ℚ) : VecZ := ⟨⌊x / TILE_SIZE⌋, ⌊y / TILE_SIZE⌋⟩

/-- Modelled from the spec: `MapObject.isPlayerObject` is defined in
`src/game/mapobject.js`, which is not among these sources.  `Map.action`
zeroes exactly the cells whose occupant satisfies this predicate, and the
spec states that attack-type path requests "clear every cell currently
occupied by a hostile (non-owning-player) entity to zero cost … while
leaving friendly-occupied cells blocking"; accordingly the predicate holds
of objects not owned by the acting player. -/
def isPlayerObject (currentPlayer : ℤ) (o : MapObject) : Bool :=
  decide (o.player ≠ some currentPlayer)

/-- The grid copy `Map.action` (map.js lines 349-387) builds and hands to
the path finder (`new PF.Grid(grid)` / `finder.findPath` belong to the
external `pathfinding` package), with the destination tile
`d = tileFromPoint(args.x, args.y)` passed in resolved form.  Rows exist for
`0 ≤ y < tilesY` and the per-row `map` skips holes; for an `attack` action a
cell occupied by an `isPlayerObject` occupant maps to weight `0`, every
other entry keeps its weight, and the destination cell is then assigned `0`
(`grid[d.tileY][d.tileX] = 0` — the JavaScript would throw if the
destination row did not exist, so the claims are read on in-bounds
destinations). -/
def actionGrid (currentPlayer : ℤ) (m : JSMap) (action : String) (d : VecZ) :
    ℤ → ℤ → Option ℤ :=
  let mapped : ℤ → ℤ → Option ℤ := fun y x =>
    if 0 ≤ y ∧ y < m.tilesY then
      (m.grid y x).map fun col =>
        if action = "attack" then
          match col.object with
          | some obj => if isPlayerObject currentPlayer obj then 0 else col.value
          | none => col.value
        else col.value
    else none
  if action = "attack" then
    fun y x => if y = d.y ∧ x = d.x then some 0 else mapped y x
  else mapped

/-- C1: in the grid copy an `attack` action hands to the path finder, every
cell whose occupant is not owned by the acting player (the spec's "hostile",
via the spec-modelled `isPlayerObject`) is set to weight zero; every cell
whose occupant is the acting player's own keeps its stored blocking weight
(destination aside); the destination cell itself is set to zero; and
non-`attack` actions keep every weight. -/
theorem actionGrid_attack_spec (cp : ℤ) (m : JSMap) (d : VecZ) (x y : ℤ)
    (hy : 0 ≤ y ∧ y < m.tilesY) :
    (∀ e obj, m.grid y x = some e → e.object = some obj →
      isPlayerObject cp obj = true →
      actionGrid cp m "attack" d y x = some 0) ∧
    (∀ e obj, m.grid y x = some e → e.object = some obj →
      isPlayerObject cp obj = false → ¬ (y = d.y ∧ x = d.x) →
      actionGrid cp m "attack" d y x = some e.value) ∧
    actionGrid cp m "attack" d d.y d.x = some 0 ∧
    (∀ a : String, a ≠ "attack" → ∀ e, m.grid y x = some e →
      actionGrid cp m a d y x = some e.value) := by
  refine ⟨?_, ?_, ?_, ?_⟩
  · intro e obj he hobj hhost
    unfold actionGrid
    dsimp only
    rw [if_pos rfl]
    by_cases hd : y = d.y ∧ x = d.x
    · rw [if_pos hd]
    · rw [if_neg hd, if_pos hy, he]
      dsimp only [Option.map]
      rw [if_pos rfl, hobj]
      dsimp only
      rw [if_pos hhost]
  · intro e obj he hobj hfriend hd
    unfold actionGrid
    dsimp only
    rw [if_pos rfl, if_neg hd, if_pos hy, he]
    dsimp only [Option.map]
    rw [if_pos rfl, hobj]
    dsimp only
    rw [if_neg (by rw [hfriend]; exact Bool.false_ne_true)]
  · unfold actionGrid
    dsimp only
    rw [if_pos rfl, if_pos ⟨rfl, rfl⟩]
  · intro a ha e he
    unfold actionGrid
    dsimp only
    rw [if_neg ha, if_pos hy, he]
    dsimp only [Option.map]
    rw [if_neg ha]

/-- A unit owned by player 1, standing at tile `(0,0)`. -/
def hostileUnit : MapObject :=
  { id := 21
    tileX := 0
    tileY := 0
    sizeX := 0
    sizeY := 0
    isMapObject := true
    occupyList := none
    player := some 1
    blocking := true }

/-- A unit owned by player 0, standing at tile `(1,0)`. -/
def friendlyUnit : MapObject :=
  { id := 22
    tileX := 1
    tileY := 0
    sizeX := 0
    sizeY := 0
    isMapObject := true
    occupyList := none
    player := some 0
    blocking := true }

/-- A 3×2 map with a hostile-occupied cell at `(0,0)` and a friendly-occupied
cell at `(1,0)`, both with blocking weight 100. -/
def battleMap : JSMap :=
  { tilesX := 3
    tilesY := 2
    baseGrid := emptyGridFn
    grid := fun y x =>
      if y = 0 ∧ x = 0 then
        some { id := some 21, value := 100, object := some hostileUnit }
      else if y = 0 ∧ x = 1 then
        some { id := some 22, value := 100, object := some friendlyUnit }
      else none
    previousGrid := emptyGridFn
    objects := [hostileUnit, friendlyUnit] }

/-- Witness for C1 at a concrete input: acting as player 0 with destination
tile `(2,1)`, the hostile-occupied cell is cleared to zero, the
friendly-occupied cell keeps weight 100, and the destination cell is
zero. -/
theorem actionGrid_attack_spec_witness :
    actionGrid 0 battleMap "attack" ⟨2, 1⟩ 0 0 = some 0 ∧
    actionGrid 0 battleMap "attack" ⟨2, 1⟩ 0 1 = some 100 ∧
    actionGrid 0 battleMap "attack" ⟨2, 1⟩ 1 2 = some 0 :=
  ⟨(actionGrid_attack_spec 0 battleMap ⟨2, 1⟩ 0 0 (by decide)).1 _ _ rfl rfl
      (by decide),
    (actionGrid_attack_spec 0 battleMap ⟨2, 1⟩ 1 0 (by decide)).2.1 _ _ rfl rfl
      (by decide) (by decide),
    (actionGrid_attack_spec 0 battleMap ⟨2, 1⟩ 0 0 (by decide)).2.2.1⟩
